import Mathlib

/-!
Verification of the QuMail quantum-secure e-mail subsystem.

Shallow embedding of:
* `SecurityService.encryptWithOTP` / `decryptFromOTP` (src/services/securityService.js)
* the mock Key-Manager server handlers (mock-services/km-server)
* `EncryptionEngine` part-wise encryption/decryption (src/services/encryptionEngine.js)

Byte sequences are modelled as `List Nat` (each entry a byte value < 256 where it
matters); JavaScript `TextEncoder`/`TextDecoder` are identities at the byte level.
Fallible code (`throw` inside `try`) is modelled with `Except String`.
-/

namespace QuMail

/-! ## SecurityService: One-Time-Pad tier (Level 1) -/

/-- Embedding of the JS XOR loop
`for (let i = 0; i < n; i++) out[i] = a[i] ^ k[i]`.
Out-of-range reads of a `Uint8Array` give `undefined`, and `x ^ undefined`
coerces to `x ^ 0` in JavaScript, hence the `getD _ 0`. -/
def xorLoop (a k : List Nat) (n : Nat) : List Nat :=
  (List.range n).map (fun i => (a.getD i 0) ^^^ (k.getD i 0))

/-- Result object of `encryptWithOTP` (fields used by decryption). -/
structure OTPPayload where
  encryptedData : List Nat
  quantumKeyId : Nat
  deriving Repr, DecidableEq

/-- Response shape of `kmService.getKey` (`status === "success"` and `keys`). -/
structure KeyResponse where
  success : Bool
  keys : List (List Nat)
  deriving Repr, DecidableEq

/-- Embedding of `SecurityService.encryptWithOTP`: the plaintext bytes are XORed
with the quantum key bytes after the guard
`if (keyBytes.length < dataSize) throw new Error("Quantum key too short for OTP encryption")`.
The key material and its id are the ones obtained from `kmService.generateOTPKeys`. -/
def encryptWithOTP (data keyBytes : List Nat) (keyId : Nat) : Except String OTPPayload :=
  if keyBytes.length < data.length then
    .error "Quantum key too short for OTP encryption"
  else
    .ok { encryptedData := xorLoop data keyBytes data.length, quantumKeyId := keyId }

/-- Embedding of `SecurityService.decryptFromOTP`: the key is re-fetched by
`quantumKeyId` through `kmService.getKey`; on success the ciphertext is XORed
with the key bytes over the whole ciphertext length (no key-length guard on
this side). -/
def decryptFromOTP (getKey : Nat → KeyResponse) (p : OTPPayload) : Except String (List Nat) :=
  let resp := getKey p.quantumKeyId
  if resp.success = true ∧ resp.keys ≠ [] then
    let keyBytes := resp.keys.headD []
    .ok (xorLoop p.encryptedData keyBytes p.encryptedData.length)
  else
    .error "Failed to retrieve quantum key for OTP decryption"

theorem length_xorLoop (a k : List Nat) (n : Nat) : (xorLoop a k n).length = n := by
  simp [xorLoop]

theorem getElem_xorLoop (a k : List Nat) (n i : Nat) (h : i < n) :
    (xorLoop a k n).getD i 0 = (a.getD i 0) ^^^ (k.getD i 0) := by
  have hlt : i < (xorLoop a k n).length := by rw [length_xorLoop]; exact h
  rw [List.getD_eq_getElem _ _ hlt]
  simp [xorLoop]

/-- Claim C1: for every plaintext `P` and OTP key `K` with `len K ≥ len P`,
decrypting the output of `encryptWithOTP`, with the key manager returning the
same key material `K` for the recorded `quantumKeyId`, yields exactly `P`. -/
theorem otp_roundtrip (P K : List Nat) (keyId : Nat) (getKey : Nat → KeyResponse)
    (hlen : P.length ≤ K.length)
    (hkey : getKey keyId = { success := true, keys := [K] }) :
    ∃ ct, encryptWithOTP P K keyId = .ok ct ∧ decryptFromOTP getKey ct = .ok P := by
  refine ⟨{ encryptedData := xorLoop P K P.length, quantumKeyId := keyId }, ?_, ?_⟩
  · simp [encryptWithOTP, Nat.not_lt.mpr hlen]
  · simp only [decryptFromOTP, hkey]
    norm_num
    apply List.ext_getElem
    · simp [length_xorLoop]
    · intro i h1 h2
      have hi : i < P.length := by simpa [length_xorLoop] using h2
      have e1 : i < (xorLoop (xorLoop P K P.length) K (xorLoop P K P.length).length).length := h1
      rw [← List.getD_eq_getElem _ 0 e1, ← List.getD_eq_getElem _ 0 h2]
      rw [getElem_xorLoop _ _ _ _ (by simpa [length_xorLoop] using hi)]
      rw [getElem_xorLoop _ _ _ _ hi]
      exact Nat.xor_cancel_right _ _

/-- Concrete instantiation of `otp_roundtrip`. -/
theorem otp_roundtrip_witness :
    ∃ ct, encryptWithOTP [1, 2, 3] [10, 20, 30, 40] 7 = .ok ct ∧
      decryptFromOTP (fun _ => { success := true, keys := [[10, 20, 30, 40]] }) ct =
        .ok [1, 2, 3] :=
  otp_roundtrip [1, 2, 3] [10, 20, 30, 40] 7
    (fun _ => { success := true, keys := [[10, 20, 30, 40]] })
    (by decide) rfl

/-- Claim C2: whenever the obtained key material is shorter than the plaintext,
`encryptWithOTP` fails with an error and produces no ciphertext (no truncation,
no padding). -/
theorem otp_encrypt_key_too_short (P K : List Nat) (keyId : Nat)
    (h : K.length < P.length) :
    encryptWithOTP P K keyId = .error "Quantum key too short for OTP encryption" := by
  simp [encryptWithOTP, h]

/-- Concrete instantiation of `otp_encrypt_key_too_short`. -/
theorem otp_encrypt_key_too_short_witness :
    encryptWithOTP [1, 2, 3] [9, 9] 5 = .error "Quantum key too short for OTP encryption" :=
  otp_encrypt_key_too_short [1, 2, 3] [9, 9] 5 (by decide)

/-- Claim C10: `decryptFromOTP` performs no key-length check: with key material
`K` shorter than the ciphertext `C` it succeeds, returning an output of length
`len C` whose entry `i` is `C[i] XOR K[i]` for `i < len K` and `C[i]` unchanged
for `i ≥ len K` (the JavaScript out-of-range read `keyBytes[i]` coerces to
XOR with zero). -/
theorem otp_decrypt_short_key (C K : List Nat) (keyId : Nat) (getKey : Nat → KeyResponse)
    (hkey : getKey keyId = { success := true, keys := [K] })
    (hshort : K.length < C.length) :
    ∃ out, decryptFromOTP getKey { encryptedData := C, quantumKeyId := keyId } = .ok out ∧
      out.length = C.length ∧
      (∀ i, i < K.length → out.getD i 0 = (C.getD i 0) ^^^ (K.getD i 0)) ∧
      (∀ i, K.length ≤ i → i < C.length → out.getD i 0 = C.getD i 0) := by
  refine ⟨xorLoop C K C.length, ?_, length_xorLoop C K C.length, ?_, ?_⟩
  · simp only [decryptFromOTP, hkey]
    norm_num
  · intro i hi
    exact getElem_xorLoop C K C.length i (lt_trans hi hshort)
  · intro i h1 h2
    rw [getElem_xorLoop C K C.length i h2, List.getD_eq_default _ _ h1, Nat.xor_zero]

/-- Concrete instantiation of `otp_decrypt_short_key`. -/
theorem otp_decrypt_short_key_witness :
    ∃ out, decryptFromOTP (fun _ => { success := true, keys := [[255]] })
        { encryptedData := [3, 7, 9], quantumKeyId := 4 } = .ok out ∧
      out.length = 3 ∧
      (∀ i, i < 1 → out.getD i 0 = ([3, 7, 9].getD i 0) ^^^ ([255].getD i 0)) ∧
      (∀ i, 1 ≤ i → i < 3 → out.getD i 0 = [3, 7, 9].getD i 0) :=
  otp_decrypt_short_key [3, 7, 9] [255] 4
    (fun _ => { success := true, keys := [[255]] }) rfl (by decide)

/-! ## Mock Key-Manager server (ETSI GS QKD 014 handlers)

Embedding of the `enc_keys` / `otp_keys` request handlers.  The in-memory
`keyDatabase` is a list of key records; both handlers filter the unused records
matching the requested key type and minimum size, reject with a 409
`INSUFFICIENT_KEYS` payload when fewer than `number` qualify, and otherwise
mark the first `number` matching records as used (the JS mutation
`selectedKey.used = true` acts on the objects shared with `keyDatabase`). -/

/-- The `keyType` field of a database record (`"encryption"` or `"otp"`). -/
inductive KeyType where
  | encryption
  | otp
  deriving Repr, DecidableEq

/-- One record of the server's `keyDatabase`. -/
structure DBKey where
  keyId : Nat
  key : List Nat
  keySize : Nat
  used : Bool
  keyType : KeyType
  deriving Repr, DecidableEq

/-- The filter predicate of both handlers:
`!k.used && k.keyType === t && k.keySize >= size`. -/
def keyMatches (t : KeyType) (size : Nat) (k : DBKey) : Bool :=
  !k.used && k.keyType == t && size ≤ k.keySize

/-- Effect of the JS selection loop on the shared database: the first `n`
records satisfying `p` get `used := true`; every other record is untouched. -/
def markFirst (p : DBKey → Bool) : Nat → List DBKey → List DBKey
  | _, [] => []
  | 0, db => db
  | n + 1, k :: db =>
    if p k then { k with used := true } :: markFirst p n db
    else k :: markFirst p (n + 1) db

/-- Outcome of an `enc_keys` / `otp_keys` request: either the reserved records
or the 409 `INSUFFICIENT_KEYS` body (its `available` and `requested` fields). -/
inductive KeysResult where
  | ok (keys : List DBKey)
  | insufficient (available requested : Nat)
  deriving Repr, DecidableEq

/-- Embedding of the `GET /api/v1/keys/:slave_sae_id/enc_keys` and `otp_keys`
handlers (they differ only in the `keyType` compared and default size): compute
`availableKeys`, reject when `availableKeys.length < number` without touching
the database, otherwise return the first `number` matching records and mark
them used in the database. -/
def handleKeysRequest (db : List DBKey) (t : KeyType) (number size : Nat) :
    KeysResult × List DBKey :=
  let avail := db.filter (keyMatches t size)
  if avail.length < number then
    (.insufficient avail.length number, db)
  else
    (.ok (avail.take number), markFirst (keyMatches t size) number db)

/-- Claim C3: a request for `N` keys against a pool holding only `M < N`
matching unused keys answers with the `INSUFFICIENT_KEYS` error reporting
`available = M` and `requested = N`, and the database — in particular every
available key — is left unchanged. -/
theorem insufficient_keys_reports_and_preserves (db : List DBKey) (t : KeyType)
    (number size M : Nat)
    (hM : (db.filter (keyMatches t size)).length = M)
    (h : M < number) :
    handleKeysRequest db t number size = (.insufficient M number, db) := by
  subst hM
  simp [handleKeysRequest, h]

/-- Concrete instantiation of `insufficient_keys_reports_and_preserves`:
a pool with 3 matching available records, a request for 5. -/
theorem insufficient_keys_witness :
    handleKeysRequest
      [ { keyId := 0, key := [1], keySize := 256, used := false, keyType := .otp },
        { keyId := 1, key := [2], keySize := 256, used := false, keyType := .otp },
        { keyId := 2, key := [3], keySize := 256, used := false, keyType := .otp },
        { keyId := 3, key := [4], keySize := 256, used := true, keyType := .otp } ]
      .otp 5 256 =
    (.insufficient 3 5,
      [ { keyId := 0, key := [1], keySize := 256, used := false, keyType := .otp },
        { keyId := 1, key := [2], keySize := 256, used := false, keyType := .otp },
        { keyId := 2, key := [3], keySize := 256, used := false, keyType := .otp },
        { keyId := 3, key := [4], keySize := 256, used := true, keyType := .otp } ]) :=
  insufficient_keys_reports_and_preserves _ .otp 5 256 3 (by decide) (by decide)

/-- One client request against the key pool (handler choice `reqType`,
query parameters `number` and `size`). -/
structure KMRequest where
  reqType : KeyType
  number : Nat
  size : Nat
  deriving Repr, DecidableEq

/-- Database evolution under a sequence of requests (each request leaves the
database of the previous one: on success with the selected records marked used,
on `INSUFFICIENT_KEYS` unchanged). -/
def runRequests (db : List DBKey) (rs : List KMRequest) : List DBKey :=
  rs.foldl (fun d r => (handleKeysRequest d r.reqType r.number r.size).2) db

theorem markFirst_nil (p : DBKey → Bool) (n : Nat) : markFirst p n [] = [] := by
  cases n <;> rfl

theorem markFirst_zero (p : DBKey → Bool) (db : List DBKey) : markFirst p 0 db = db := by
  cases db <;> rfl

theorem markFirst_succ_cons (p : DBKey → Bool) (n : Nat) (k : DBKey) (db : List DBKey) :
    markFirst p (n + 1) (k :: db) =
      if p k then { k with used := true } :: markFirst p n db
      else k :: markFirst p (n + 1) db := rfl

/-- Every record of the marked database is a record of the original database,
possibly with its `used` flag set. -/
theorem mem_markFirst (p : DBKey → Bool) (n : Nat) (db : List DBKey) (k' : DBKey)
    (h : k' ∈ markFirst p n db) :
    ∃ k ∈ db, k' = k ∨ k' = { k with used := true } := by
  induction db generalizing n with
  | nil => rw [markFirst_nil] at h; cases h
  | cons x db ih =>
    cases n with
    | zero =>
      rw [markFirst_zero] at h
      exact ⟨k', h, Or.inl rfl⟩
    | succ m =>
      rw [markFirst_succ_cons] at h
      by_cases hp : p x = true
      · rw [if_pos hp] at h
        rcases List.mem_cons.mp h with h | h
        · exact ⟨x, List.mem_cons_self _ _, Or.inr h⟩
        · obtain ⟨k, hk, hor⟩ := ih m h
          exact ⟨k, List.mem_cons_of_mem _ hk, hor⟩
      · rw [if_neg hp] at h
        rcases List.mem_cons.mp h with h | h
        · exact ⟨x, List.mem_cons_self _ _, Or.inl h⟩
        · obtain ⟨k, hk, hor⟩ := ih (m + 1) h
          exact ⟨k, List.mem_cons_of_mem _ hk, hor⟩

/-- Marking preserves the sequence of key ids. -/
theorem map_keyId_markFirst (p : DBKey → Bool) (n : Nat) (db : List DBKey) :
    (markFirst p n db).map DBKey.keyId = db.map DBKey.keyId := by
  induction db generalizing n with
  | nil => rw [markFirst_nil]
  | cons x db ih =>
    cases n with
    | zero => rw [markFirst_zero]
    | succ m =>
      rw [markFirst_succ_cons]
      by_cases hp : p x = true
      · rw [if_pos hp]; simp [ih m]
      · rw [if_neg hp]; simp [ih (m + 1)]

/-- Every record carrying the id `id` in `db` is already consumed. -/
def usedAt (db : List DBKey) (id : Nat) : Prop :=
  ∀ k ∈ db, k.keyId = id → k.used = true

theorem usedAt_markFirst (p : DBKey → Bool) (n : Nat) (db : List DBKey) (id : Nat)
    (h : usedAt db id) : usedAt (markFirst p n db) id := by
  intro k' hk' hid
  obtain ⟨k, hk, hor⟩ := mem_markFirst p n db k' hk'
  rcases hor with h1 | h1
  · rw [h1] at hid ⊢
    exact h k hk hid
  · rw [h1]

theorem map_keyId_handleKeysRequest (db : List DBKey) (t : KeyType) (n s : Nat) :
    ((handleKeysRequest db t n s).2).map DBKey.keyId = db.map DBKey.keyId := by
  unfold handleKeysRequest
  by_cases h : (db.filter (keyMatches t s)).length < n
  · rw [if_pos h]
  · rw [if_neg h]; exact map_keyId_markFirst _ n db

theorem usedAt_handleKeysRequest (db : List DBKey) (t : KeyType) (n s id : Nat)
    (h : usedAt db id) : usedAt (handleKeysRequest db t n s).2 id := by
  unfold handleKeysRequest
  by_cases hc : (db.filter (keyMatches t s)).length < n
  · rw [if_pos hc]; exact h
  · rw [if_neg hc]; exact usedAt_markFirst _ n db id h

theorem map_keyId_runRequests (db : List DBKey) (rs : List KMRequest) :
    (runRequests db rs).map DBKey.keyId = db.map DBKey.keyId := by
  induction rs generalizing db with
  | nil => rfl
  | cons r rs ih =>
    show (runRequests (handleKeysRequest db r.reqType r.number r.size).2 rs).map DBKey.keyId = _
    rw [ih, map_keyId_handleKeysRequest]

theorem usedAt_runRequests (db : List DBKey) (rs : List KMRequest) (id : Nat)
    (h : usedAt db id) : usedAt (runRequests db rs) id := by
  induction rs generalizing db with
  | nil => exact h
  | cons r rs ih =>
    exact ih _ (usedAt_handleKeysRequest db r.reqType r.number r.size id h)

/-- Shape of a successful request: the returned records are the first `number`
matching ones and the database is the marked one. -/
theorem handleKeysRequest_ok (db : List DBKey) (t : KeyType) (n s : Nat)
    (ks : List DBKey) (h : (handleKeysRequest db t n s).1 = .ok ks) :
    ks = (db.filter (keyMatches t s)).take n ∧
      (handleKeysRequest db t n s).2 = markFirst (keyMatches t s) n db := by
  unfold handleKeysRequest at h ⊢
  by_cases hc : (db.filter (keyMatches t s)).length < n
  · rw [if_pos hc] at h; cases h
  · rw [if_neg hc] at h ⊢
    exact ⟨(KeysResult.ok.injEq _ _ ▸ h).symm, rfl⟩

/-- Records returned by a successful request were available records of the pool. -/
theorem handleKeysRequest_ok_mem (db : List DBKey) (t : KeyType) (n s : Nat)
    (ks : List DBKey) (h : (handleKeysRequest db t n s).1 = .ok ks)
    (k : DBKey) (hk : k ∈ ks) : k ∈ db ∧ k.used = false := by
  obtain ⟨hks, -⟩ := handleKeysRequest_ok db t n s ks h
  subst hks
  have hf : k ∈ db.filter (keyMatches t s) := List.mem_of_mem_take hk
  have hmem := List.mem_filter.mp hf
  refine ⟨hmem.1, ?_⟩
  have := hmem.2
  unfold keyMatches at this
  simp only [Bool.and_eq_true, Bool.not_eq_true'] at this
  exact this.1.1

/-- Core marking lemma: when the ids of the pool are pairwise distinct, every
record among the first `n` matching ones has its id consumed after marking. -/
theorem usedAt_markFirst_of_mem_take (p : DBKey → Bool) (db : List DBKey) :
    ∀ n : Nat, (db.map DBKey.keyId).Nodup →
      ∀ k ∈ (db.filter p).take n, usedAt (markFirst p n db) k.keyId := by
  induction db with
  | nil => intro n _ k hk; rw [List.filter_nil, List.take_nil] at hk; cases hk
  | cons x db ih =>
    intro n hnd k hk
    simp only [List.map_cons, List.nodup_cons, List.mem_map, not_exists] at hnd
    cases n with
    | zero => rw [List.take_zero] at hk; cases hk
    | succ m =>
      by_cases hp : p x = true
      · rw [List.filter_cons_of_pos hp, List.take_succ_cons] at hk
        rw [markFirst_succ_cons, if_pos hp]
        rcases List.mem_cons.mp hk with h1 | hk2
        · intro k' hk' hid
          rcases List.mem_cons.mp hk' with h2 | hk'2
          · rw [h2]
          · obtain ⟨k0, hk0, hor⟩ := mem_markFirst _ m db k' hk'2
            have hid0 : k0.keyId = x.keyId := by
              rcases hor with h3 | h3
              · rw [← h3, hid, h1]
              · have : k'.keyId = k0.keyId := by rw [h3]
                rw [← this, hid, h1]
            exact absurd ⟨hk0, hid0⟩ (hnd.1 k0)
        · intro k' hk' hid
          rcases List.mem_cons.mp hk' with h2 | hk'2
          · rw [h2]
          · exact ih m (by
              have := hnd.2
              simpa [List.nodup_cons] using this) k hk2 k' hk'2 hid
      · rw [List.filter_cons_of_neg hp] at hk
        rw [markFirst_succ_cons, if_neg hp]
        intro k' hk' hid
        rcases List.mem_cons.mp hk' with h2 | hk'2
        · have hkdb : k ∈ db := (List.mem_filter.mp (List.mem_of_mem_take hk)).1
          have : k.keyId = x.keyId := by rw [← hid, h2]
          exact absurd ⟨hkdb, this⟩ (hnd.1 k)
        · exact ih (m + 1) (by
            have := hnd.2
            simpa [List.nodup_cons] using this) k hk k' hk'2 hid

theorem handleKeysRequest_ok_usedAt (db : List DBKey) (t : KeyType) (n s : Nat)
    (hnd : (db.map DBKey.keyId).Nodup)
    (ks : List DBKey) (h : (handleKeysRequest db t n s).1 = .ok ks)
    (k : DBKey) (hk : k ∈ ks) : usedAt (handleKeysRequest db t n s).2 k.keyId := by
  obtain ⟨hks, hdb⟩ := handleKeysRequest_ok db t n s ks h
  rw [hdb]
  subst hks
  exact usedAt_markFirst_of_mem_take (keyMatches t s) db n hnd k hk

/-- Claim C6: across any sequence of requests against the key pool, no key id
is returned by two different successful requests — once returned, a key is
marked used and excluded from every later selection.  The hypothesis that key
ids are pairwise distinct reflects the JS `keyDatabase` being a `Map` keyed by
`keyId`. -/
theorem no_key_reuse (db0 : List DBKey) (pre mid : List KMRequest) (r1 r2 : KMRequest)
    (hnd : (db0.map DBKey.keyId).Nodup) (ks1 ks2 : List DBKey)
    (h1 : (handleKeysRequest (runRequests db0 pre) r1.reqType r1.number r1.size).1 = .ok ks1)
    (h2 : (handleKeysRequest
            (runRequests
              (handleKeysRequest (runRequests db0 pre) r1.reqType r1.number r1.size).2 mid)
            r2.reqType r2.number r2.size).1 = .ok ks2) :
    ∀ k1 ∈ ks1, ∀ k2 ∈ ks2, k1.keyId ≠ k2.keyId := by
  intro k1 hk1 k2 hk2 heq
  set db1 := runRequests db0 pre with hdb1
  have hnd1 : (db1.map DBKey.keyId).Nodup := by
    rw [hdb1, map_keyId_runRequests]; exact hnd
  have hused2 : usedAt (handleKeysRequest db1 r1.reqType r1.number r1.size).2 k1.keyId :=
    handleKeysRequest_ok_usedAt db1 r1.reqType r1.number r1.size hnd1 ks1 h1 k1 hk1
  have hused3 : usedAt
      (runRequests (handleKeysRequest db1 r1.reqType r1.number r1.size).2 mid) k1.keyId :=
    usedAt_runRequests _ mid _ hused2
  obtain ⟨hk2mem, hk2unused⟩ :=
    handleKeysRequest_ok_mem _ r2.reqType r2.number r2.size ks2 h2 k2 hk2
  have := hused3 k2 hk2mem heq.symm
  rw [this] at hk2unused
  cases hk2unused

/-- Concrete instantiation of `no_key_reuse`: two consecutive single-key OTP
requests against a two-key pool return different key ids. -/
theorem no_key_reuse_witness :
    ({ keyId := 10, key := [5], keySize := 1024, used := false,
       keyType := KeyType.otp : DBKey }).keyId ≠
      ({ keyId := 11, key := [6], keySize := 1024, used := false,
         keyType := KeyType.otp : DBKey }).keyId :=
  no_key_reuse
    [ { keyId := 10, key := [5], keySize := 1024, used := false, keyType := .otp },
      { keyId := 11, key := [6], keySize := 1024, used := false, keyType := .otp } ]
    [] [] { reqType := .otp, number := 1, size := 256 }
    { reqType := .otp, number := 1, size := 256 }
    (by decide)
    [{ keyId := 10, key := [5], keySize := 1024, used := false, keyType := .otp }]
    [{ keyId := 11, key := [6], keySize := 1024, used := false, keyType := .otp }]
    (by decide) (by decide)
    { keyId := 10, key := [5], keySize := 1024, used := false, keyType := .otp }
    (by decide)
    { keyId := 11, key := [6], keySize := 1024, used := false, keyType := .otp }
    (by decide)

/-! ## Base64 transport encoding (`btoa` / `atob`)

`EncryptionEngine.arrayBufferToBase64` turns a byte buffer into a binary
string and applies `btoa`; `base64ToArrayBuffer` applies `atob` and reads the
char codes back.  `atob` throws on malformed input, modelled with `Option`. -/

/-- The base64 alphabet. -/
def b64Chars : List Char :=
  [ 'A', 'B', 'C', 'D', 'E', 'F', 'G', 'H', 'I', 'J', 'K', 'L', 'M',
    'N', 'O', 'P', 'Q', 'R', 'S', 'T', 'U', 'V', 'W', 'X', 'Y', 'Z',
    'a', 'b', 'c', 'd', 'e', 'f', 'g', 'h', 'i', 'j', 'k', 'l', 'm',
    'n', 'o', 'p', 'q', 'r', 's', 't', 'u', 'v', 'w', 'x', 'y', 'z',
    '0', '1', '2', '3', '4', '5', '6', '7', '8', '9', '+', '/' ]

/-- Character of a 6-bit group. -/
def b64Char (n : Nat) : Char := b64Chars.getD n '?'

/-- Value of an alphabet character, `none` outside the alphabet
(where `atob` throws). -/
def b64Index (c : Char) : Option Nat := b64Chars.indexOf? c

/-- Embedding of `btoa` on byte values: three bytes become four alphabet
characters, a trailing group of one or two bytes is padded with `=`. -/
def encodeB64 : List Nat → List Char
  | [] => []
  | [b1] => [b64Char (b1 / 4), b64Char (b1 % 4 * 16), '=', '=']
  | [b1, b2] =>
    [b64Char (b1 / 4), b64Char (b1 % 4 * 16 + b2 / 16), b64Char (b2 % 16 * 4), '=']
  | b1 :: b2 :: b3 :: rest =>
    b64Char (b1 / 4) :: b64Char (b1 % 4 * 16 + b2 / 16) ::
      b64Char (b2 % 16 * 4 + b3 / 64) :: b64Char (b3 % 64) :: encodeB64 rest

/-- Embedding of `atob` on the well-formed strings `btoa` produces: four-char
groups, `=` padding only in a final group, `none` (a thrown
`InvalidCharacterError`) otherwise. -/
def decodeB64 : List Char → Option (List Nat)
  | [] => some []
  | c1 :: c2 :: c3 :: c4 :: rest =>
    match b64Index c1, b64Index c2 with
    | some d1, some d2 =>
      if c3 = '=' then
        if c4 = '=' ∧ rest = [] then some [d1 * 4 + d2 / 16] else none
      else
        match b64Index c3 with
        | some d3 =>
          if c4 = '=' then
            if rest = [] then some [d1 * 4 + d2 / 16, d2 % 16 * 16 + d3 / 4] else none
          else
            match b64Index c4, decodeB64 rest with
            | some d4, some tail =>
              some ((d1 * 4 + d2 / 16) :: (d2 % 16 * 16 + d3 / 4) :: (d3 % 4 * 64 + d4) :: tail)
            | _, _ => none
        | none => none
    | _, _ => none
  | _ => none

/-- Embedding of `EncryptionEngine.arrayBufferToBase64`. -/
def arrayBufferToBase64 (b : List Nat) : String := String.mk (encodeB64 b)

/-- Embedding of `EncryptionEngine.base64ToArrayBuffer` (`atob` plus reading
back the char codes). -/
def base64ToArrayBuffer (s : String) : Option (List Nat) := decodeB64 s.data

theorem b64Index_b64Char : ∀ n < 64, b64Index (b64Char n) = some n := by decide

theorem b64Char_ne_pad : ∀ n < 64, b64Char n ≠ '=' := by decide

/-- Byte-exact base64 round trip at the level of char lists. -/
theorem decodeB64_encodeB64 :
    ∀ b : List Nat, (∀ x ∈ b, x < 256) → decodeB64 (encodeB64 b) = some b
  | [], _ => rfl
  | [b1], hb => by
    have h1 : b1 < 256 := hb b1 (by simp)
    rw [encodeB64, decodeB64]
    rw [b64Index_b64Char (b1 / 4) (by omega), b64Index_b64Char (b1 % 4 * 16) (by omega)]
    simp only [if_pos rfl, and_self, reduceIte]
    have : b1 / 4 * 4 + b1 % 4 * 16 / 16 = b1 := by omega
    rw [this]
  | [b1, b2], hb => by
    have h1 : b1 < 256 := hb b1 (by simp)
    have h2 : b2 < 256 := hb b2 (by simp)
    rw [encodeB64, decodeB64]
    rw [b64Index_b64Char (b1 / 4) (by omega),
      b64Index_b64Char (b1 % 4 * 16 + b2 / 16) (by omega),
      b64Index_b64Char (b2 % 16 * 4) (by omega)]
    simp only [if_neg (b64Char_ne_pad (b2 % 16 * 4) (by omega)), if_pos rfl, reduceIte]
    have e1 : b1 / 4 * 4 + (b1 % 4 * 16 + b2 / 16) / 16 = b1 := by omega
    have e2 : (b1 % 4 * 16 + b2 / 16) % 16 * 16 + b2 % 16 * 4 / 4 = b2 := by omega
    rw [e1, e2]
  | b1 :: b2 :: b3 :: rest, hb => by
    have h1 : b1 < 256 := hb b1 (by simp)
    have h2 : b2 < 256 := hb b2 (by simp)
    have h3 : b3 < 256 := hb b3 (by simp)
    have ih := decodeB64_encodeB64 rest
      (fun x hx => hb x (by simp at hx ⊢; tauto))
    rw [encodeB64, decodeB64]
    rw [b64Index_b64Char (b1 / 4) (by omega),
      b64Index_b64Char (b1 % 4 * 16 + b2 / 16) (by omega),
      b64Index_b64Char (b2 % 16 * 4 + b3 / 64) (by omega),
      b64Index_b64Char (b3 % 64) (by omega)]
    simp only [if_neg (b64Char_ne_pad (b2 % 16 * 4 + b3 / 64) (by omega)),
      if_neg (b64Char_ne_pad (b3 % 64) (by omega)), ih]
    have e1 : b1 / 4 * 4 + (b1 % 4 * 16 + b2 / 16) / 16 = b1 := by omega
    have e2 : (b1 % 4 * 16 + b2 / 16) % 16 * 16 + (b2 % 16 * 4 + b3 / 64) / 4 = b2 := by omega
    have e3 : (b2 % 16 * 4 + b3 / 64) % 4 * 64 + b3 % 64 = b3 := by omega
    rw [e1, e2, e3]

/-! ## EncryptionEngine (src/services/encryptionEngine.js)

The engine splits an e-mail into subject, body and attachments and calls
`securityService.encryptData` / `decryptData` per part.  Those calls are the
pluggable provider boundary, modelled as function parameters `enc` and `dec`
(a thrown provider error is `Except.error`).  Timestamps and the random
`encryptionId` are not modelled: no claim mentions them. -/

/-- Attachment `data` field: a JS string or an `ArrayBuffer`. -/
inductive AttData where
  | str (s : String)
  | buf (b : List Nat)
  deriving Repr, DecidableEq, Inhabited

/-- Result object of `securityService.encryptData` (fields the engine reads). -/
structure EncOut where
  encryptedData : String
  algorithm : String
  securityLevel : String
  quantumKeyId : Option Nat
  deriving Repr, DecidableEq, Inhabited

/-- Per-part metadata recorded at encryption time
(`encryptionMetadata.components.*` entries). -/
structure PartMeta where
  algorithm : String
  securityLevel : String
  quantumKeyId : Option Nat
  originalSize : Nat
  originalContentType : String
  deriving Repr, DecidableEq, Inhabited

/-- Argument object of `securityService.decryptData`. -/
structure DecRequest where
  encryptedData : String
  securityLevel : String
  quantumKeyId : Option Nat
  algorithm : String
  deriving Repr, DecidableEq, Inhabited

/-- An e-mail attachment (fields the engine reads and writes). -/
structure Attachment where
  filename : String
  contentType : String
  size : Nat
  data : AttData
  encrypted : Bool
  encryptionError : Option String
  decryptionError : Option String
  metadata : Option PartMeta
  deriving Repr, DecidableEq, Inhabited

/-- Email-level encryption metadata (`encryptionMetadata` with its
`components`). -/
structure EmailMeta where
  securityLevel : String
  subject : PartMeta
  body : PartMeta
  attachments : List (Option PartMeta)
  deriving Repr, DecidableEq, Inhabited

/-- An e-mail as the engine sees it.  A JS object without the `encrypted`
field is falsy there, hence `encrypted : Bool` with `false` for absent. -/
structure Email where
  subject : String
  body : String
  attachments : List Attachment
  encrypted : Bool
  encryptionMetadata : Option EmailMeta
  deriving Repr, DecidableEq, Inhabited

/-- Conversion applied before encrypting attachment data:
an `ArrayBuffer` goes through `arrayBufferToBase64`. -/
def attDataAsString (d : AttData) : String :=
  match d with
  | .str s => s
  | .buf b => arrayBufferToBase64 b

/-- Metadata stored for one encrypted part. -/
def metaOfEncOut (e : EncOut) (originalSize : Nat) (originalContentType : String) : PartMeta :=
  { algorithm := e.algorithm, securityLevel := e.securityLevel,
    quantumKeyId := e.quantumKeyId, originalSize := originalSize,
    originalContentType := originalContentType }

/-- Body of the `encryptAttachments` loop for one attachment: the `try` branch
encrypts the data, the `catch` branch carries the attachment through
unencrypted with `encrypted: false` and an `encryptionError` note. -/
def encryptOneAttachment (enc : String → Except String EncOut) (a : Attachment) : Attachment :=
  match enc (attDataAsString a.data) with
  | .ok e =>
    { a with data := .str e.encryptedData, encrypted := true,
             metadata := some (metaOfEncOut e a.size a.contentType) }
  | .error msg => { a with encrypted := false, encryptionError := some msg }

/-- Embedding of `EncryptionEngine.encryptAttachments`. -/
def encryptAttachments (enc : String → Except String EncOut) :
    List Attachment → List Attachment
  | [] => []
  | a :: rest => encryptOneAttachment enc a :: encryptAttachments enc rest

/-- Embedding of `EncryptionEngine.formatEncryptedSubject`. -/
def formatEncryptedSubject (e : EncOut) : String :=
  "[QuMail-Encrypted] " ++ e.encryptedData.take 50 ++ "..."

/-- Embedding of `EncryptionEngine.formatEncryptedBody` (the transport HTML
wrapper; the decrypt side looks for the `QuMail-Encrypted-Body:` marker). -/
def formatEncryptedBody (e : EncOut) : String :=
  "\n<html>\n<body>\n  <div>\n    <h3>QuMail Encrypted Message</h3>\n" ++
  "    <p>This message is encrypted with quantum security technology.</p>\n" ++
  "    <p><strong>Security Level:</strong> " ++ e.securityLevel ++
  "<br>\n      <strong>Algorithm:</strong> " ++ e.algorithm ++ "\n    </p>\n" ++
  "    <div>\n      QuMail-Encrypted-Body: " ++ e.encryptedData ++ "\n    </div>\n" ++
  "    <p>\n      Open with QuMail to decrypt and view the original message.\n" ++
  "    </p>\n  </div>\n</body>\n</html>"

/-- Embedding of `EncryptionEngine.encryptEmail`: subject and body are
encrypted first (a provider failure there aborts and is reported as
`success: false`), then the attachments, which never abort. -/
def encryptEmail (enc : String → Except String EncOut) (securityLevel : String)
    (email : Email) : Except String Email := do
  let es ← enc email.subject
  let eb ← enc email.body
  let eatts := encryptAttachments enc email.attachments
  .ok { email with
    subject := formatEncryptedSubject es,
    body := formatEncryptedBody eb,
    attachments := eatts,
    encrypted := true,
    encryptionMetadata := some
      { securityLevel := securityLevel,
        subject := metaOfEncOut es 0 "",
        body := metaOfEncOut eb email.body.length "",
        attachments := eatts.map Attachment.metadata } }

/-- Embedding of `EncryptionEngine.decryptSubject`: a subject without the
`[QuMail-Encrypted]` prefix is returned as-is; any failure in the `try` block
is caught and becomes the `"[Decryption Failed]"` placeholder. -/
def decryptSubject (dec : DecRequest → Except String String) (s : String)
    (md : PartMeta) : String :=
  if List.isPrefixOf ("[QuMail-Encrypted]".data) s.data = false then s
  else
    match dec { encryptedData := s.replace "[QuMail-Encrypted] " "",
                securityLevel := md.securityLevel,
                quantumKeyId := md.quantumKeyId,
                algorithm := md.algorithm } with
    | .ok d => d
    | .error _ => "[Decryption Failed]"

/-- Embedding of `String.prototype.includes`. -/
def containsSub (marker : List Char) : List Char → Bool
  | [] => marker.isEmpty
  | c :: cs => marker.isPrefixOf (c :: cs) || containsSub marker cs

/-- Suffix after the first occurrence of `marker`, `none` when absent
(the `String.match` of the body regex). -/
def afterFirst (marker : List Char) : List Char → Option (List Char)
  | [] => none
  | c :: cs =>
    if marker.isPrefixOf (c :: cs) then some ((c :: cs).drop marker.length)
    else afterFirst marker cs

/-- Embedding of the body-regex extraction
`encryptedBody.match(/QuMail-Encrypted-Body:\s*([^<]+)/)` followed by
`.trim()`: everything between the marker and the next `<`, trimmed; `none`
when the regex does not match (no marker with colon, or no non-`<` character
after it). -/
def extractEncryptedBody (body : String) : Option String :=
  match afterFirst ("QuMail-Encrypted-Body:".data) body.data with
  | none => none
  | some rest =>
    let captured := rest.takeWhile (fun c => c ≠ '<')
    if captured.isEmpty then none else some (String.mk captured).trim

/-- The placeholder `decryptBody` returns for any caught failure. -/
def bodyFailedPlaceholder : String :=
  "<p><strong>Decryption Failed:</strong> Unable to decrypt email body.</p>"

/-- Embedding of `EncryptionEngine.decryptBody`: a body without the
`QuMail-Encrypted-Body` marker is returned as-is; a failed extraction throws
`"Invalid encrypted body format"` and a failed provider call throws too, both
caught into the placeholder. -/
def decryptBody (dec : DecRequest → Except String String) (body : String)
    (md : PartMeta) : String :=
  if containsSub ("QuMail-Encrypted-Body".data) body.data = false then body
  else
    match extractEncryptedBody body with
    | none => bodyFailedPlaceholder
    | some ed =>
      match dec { encryptedData := ed, securityLevel := md.securityLevel,
                  quantumKeyId := md.quantumKeyId, algorithm := md.algorithm } with
      | .ok d => d
      | .error _ => bodyFailedPlaceholder

/-- Body of the `decryptAttachments` loop for one attachment.  `md = none`
models `metadataArray[i]` being `undefined` (reading `.securityLevel` then
throws inside the `try`).  The JS `metadata.originalContentType || ...` and
`metadata.originalSize || ...` fallbacks treat the empty string and `0` as
falsy.  A caught failure carries the attachment through with a
`decryptionError` note. -/
def decryptOneAttachment (dec : DecRequest → Except String String)
    (a : Attachment) (md : Option PartMeta) : Attachment :=
  if a.encrypted = false then a
  else
    match md with
    | none => { a with decryptionError := some "Cannot read properties of undefined" }
    | some m =>
      match dec { encryptedData := attDataAsString a.data,
                  securityLevel := m.securityLevel,
                  quantumKeyId := m.quantumKeyId,
                  algorithm := m.algorithm } with
      | .error e => { a with decryptionError := some e }
      | .ok d =>
        if m.originalContentType ≠ "" ∧
            List.isPrefixOf ("text/".data) m.originalContentType.data = false then
          match base64ToArrayBuffer d with
          | none => { a with decryptionError := some "InvalidCharacterError" }
          | some buf =>
            { a with data := .buf buf, encrypted := false,
                     contentType := m.originalContentType,
                     size := if m.originalSize = 0 then a.size else m.originalSize }
        else
          { a with data := .str d, encrypted := false,
                   contentType := if m.originalContentType = "" then a.contentType
                                  else m.originalContentType,
                   size := if m.originalSize = 0 then a.size else m.originalSize }

/-- Embedding of `EncryptionEngine.decryptAttachments`: the loop pairs
`encryptedAttachments[i]` with `metadataArray[i]` (`undefined` past the end or
when stored as such). -/
def decryptAttachments (dec : DecRequest → Except String String) :
    List Attachment → List (Option PartMeta) → List Attachment
  | [], _ => []
  | a :: rest, [] => decryptOneAttachment dec a none :: decryptAttachments dec rest []
  | a :: rest, m :: ms => decryptOneAttachment dec a m :: decryptAttachments dec rest ms

/-- Return object of `EncryptionEngine.decryptEmail` on success. -/
structure DecryptEmailOut where
  decryptedEmail : Email
  wasEncrypted : Bool
  securityLevel : Option String
  deriving Repr, DecidableEq, Inhabited

/-- Embedding of `EncryptionEngine.decryptEmail`: a non-encrypted e-mail is
passed through untouched; missing metadata aborts; otherwise every part is
decrypted through the per-part helpers, which never throw. -/
def decryptEmail (dec : DecRequest → Except String String) (email : Email) :
    Except String DecryptEmailOut :=
  if email.encrypted = false then
    .ok { decryptedEmail := email, wasEncrypted := false, securityLevel := none }
  else
    match email.encryptionMetadata with
    | none => .error "Missing encryption metadata"
    | some md =>
      .ok { decryptedEmail :=
              { email with
                subject := decryptSubject dec email.subject md.subject,
                body := decryptBody dec email.body md.body,
                attachments := decryptAttachments dec email.attachments md.attachments,
                encrypted := false },
            wasEncrypted := true,
            securityLevel := some md.securityLevel }

theorem encryptAttachments_length (enc : String → Except String EncOut)
    (atts : List Attachment) : (encryptAttachments enc atts).length = atts.length := by
  induction atts with
  | nil => rfl
  | cons a rest ih => simp [encryptAttachments, ih]

theorem encryptAttachments_getD (enc : String → Except String EncOut)
    (atts : List Attachment) (i : Nat) (h : i < atts.length) :
    (encryptAttachments enc atts).getD i default =
      encryptOneAttachment enc (atts.getD i default) := by
  induction atts generalizing i with
  | nil => cases h
  | cons a rest ih =>
    cases i with
    | zero => rfl
    | succ j =>
      have hj : j < rest.length := Nat.lt_of_succ_lt_succ h
      simpa [encryptAttachments] using ih j hj

/-- Claim C9: `decryptEmail` on a message whose `encrypted` field is absent or
`false` succeeds, returns the input unchanged with `wasEncrypted = false`, and
performs no decryption (the result does not depend on the provider). -/
theorem decrypt_unencrypted_passthrough (dec dec2 : DecRequest → Except String String)
    (email : Email) (h : email.encrypted = false) :
    decryptEmail dec email =
      .ok { decryptedEmail := email, wasEncrypted := false, securityLevel := none } ∧
    decryptEmail dec email = decryptEmail dec2 email := by
  constructor <;> simp [decryptEmail, h]

/-- Concrete instantiation of `decrypt_unencrypted_passthrough`. -/
theorem decrypt_unencrypted_passthrough_witness :
    decryptEmail (fun _ => .error "provider down")
        { subject := "hi", body := "text", attachments := [], encrypted := false,
          encryptionMetadata := none } =
      .ok { decryptedEmail := { subject := "hi", body := "text", attachments := [],
                                encrypted := false, encryptionMetadata := none },
            wasEncrypted := false, securityLevel := none } ∧
    decryptEmail (fun _ => .error "provider down")
        { subject := "hi", body := "text", attachments := [], encrypted := false,
          encryptionMetadata := none } =
      decryptEmail (fun r => .ok r.encryptedData)
        { subject := "hi", body := "text", attachments := [], encrypted := false,
          encryptionMetadata := none } :=
  decrypt_unencrypted_passthrough (fun _ => .error "provider down")
    (fun r => .ok r.encryptedData)
    { subject := "hi", body := "text", attachments := [], encrypted := false,
      encryptionMetadata := none } rfl

/-- Claim C4: when the provider succeeds on subject and body, `encryptEmail`
succeeds even if it throws on some attachments; no attachment is dropped, a
failing attachment is carried through with `encrypted := false` and an
`encryptionError` note and its data untouched, every other attachment (and
the subject and body) is encrypted normally. -/
theorem encrypt_attachment_failure_isolated (enc : String → Except String EncOut)
    (lvl : String) (email : Email) (es eb : EncOut)
    (hs : enc email.subject = .ok es) (hb : enc email.body = .ok eb) :
    ∃ out, encryptEmail enc lvl email = .ok out ∧
      out.subject = formatEncryptedSubject es ∧
      out.body = formatEncryptedBody eb ∧
      out.encrypted = true ∧
      out.attachments.length = email.attachments.length ∧
      (∀ i, i < email.attachments.length →
        (∀ msg, enc (attDataAsString (email.attachments.getD i default).data) = .error msg →
          out.attachments.getD i default =
            { email.attachments.getD i default with
              encrypted := false, encryptionError := some msg }) ∧
        (∀ e, enc (attDataAsString (email.attachments.getD i default).data) = .ok e →
          out.attachments.getD i default =
            { email.attachments.getD i default with
              data := .str e.encryptedData, encrypted := true,
              metadata := some (metaOfEncOut e (email.attachments.getD i default).size
                (email.attachments.getD i default).contentType) })) := by
  refine ⟨{ email with
      subject := formatEncryptedSubject es,
      body := formatEncryptedBody eb,
      attachments := encryptAttachments enc email.attachments,
      encrypted := true,
      encryptionMetadata := some
        { securityLevel := lvl,
          subject := metaOfEncOut es 0 "",
          body := metaOfEncOut eb email.body.length "",
          attachments := (encryptAttachments enc email.attachments).map Attachment.metadata } },
    ?_, rfl, rfl, rfl, encryptAttachments_length enc email.attachments, ?_⟩
  · simp only [encryptEmail, hs, hb]
    rfl
  · intro i hi
    constructor
    · intro msg hmsg
      rw [encryptAttachments_getD enc email.attachments i hi]
      simp only [encryptOneAttachment, hmsg]
    · intro e he
      rw [encryptAttachments_getD enc email.attachments i hi]
      simp only [encryptOneAttachment, he, metaOfEncOut]

/-- Sample provider for concrete engine runs: throws exactly on attachment
data starting with `x`. -/
def sampleEnc : String → Except String EncOut := fun s =>
  match s.data with
  | 'x' :: _ => .error "attachment provider boom"
  | _ => .ok { encryptedData := "CIPHER", algorithm := "OTP",
               securityLevel := "quantum_secure", quantumKeyId := some 3 }

/-- The provider output `sampleEnc` produces on non-failing input. -/
def sampleEncOut : EncOut :=
  { encryptedData := "CIPHER", algorithm := "OTP",
    securityLevel := "quantum_secure", quantumKeyId := some 3 }

/-- A plain-text attachment whose encryption succeeds. -/
def sampleAttA : Attachment :=
  { filename := "a.txt", contentType := "text/plain", size := 2,
    data := .str "ok", encrypted := false, encryptionError := none,
    decryptionError := none, metadata := none }

/-- A binary attachment whose data makes `sampleEnc` throw. -/
def sampleAttB : Attachment :=
  { filename := "b.pdf", contentType := "application/pdf", size := 3,
    data := .str "xyz", encrypted := false, encryptionError := none,
    decryptionError := none, metadata := none }

/-- A two-attachment message for concrete engine runs. -/
def sampleEmail : Email :=
  { subject := "greetings", body := "quantum body",
    attachments := [sampleAttA, sampleAttB],
    encrypted := false, encryptionMetadata := none }

/-- Concrete instantiation of `encrypt_attachment_failure_isolated` on
`sampleEmail`, whose second attachment makes the provider throw. -/
theorem encrypt_attachment_failure_witness :
    ∃ out, encryptEmail sampleEnc "quantum_secure" sampleEmail = .ok out ∧
      out.subject = formatEncryptedSubject sampleEncOut ∧
      out.body = formatEncryptedBody sampleEncOut ∧
      out.encrypted = true ∧
      out.attachments.length = sampleEmail.attachments.length ∧
      (∀ i, i < sampleEmail.attachments.length →
        (∀ msg, sampleEnc (attDataAsString (sampleEmail.attachments.getD i default).data) =
            .error msg →
          out.attachments.getD i default =
            { sampleEmail.attachments.getD i default with
              encrypted := false, encryptionError := some msg }) ∧
        (∀ e, sampleEnc (attDataAsString (sampleEmail.attachments.getD i default).data) =
            .ok e →
          out.attachments.getD i default =
            { sampleEmail.attachments.getD i default with
              data := .str e.encryptedData, encrypted := true,
              metadata := some (metaOfEncOut e (sampleEmail.attachments.getD i default).size
                (sampleEmail.attachments.getD i default).contentType) })) :=
  encrypt_attachment_failure_isolated sampleEnc "quantum_secure" sampleEmail
    sampleEncOut sampleEncOut rfl rfl

theorem decryptAttachments_length (dec : DecRequest → Except String String)
    (atts : List Attachment) (mds : List (Option PartMeta)) :
    (decryptAttachments dec atts mds).length = atts.length := by
  induction atts generalizing mds with
  | nil => rfl
  | cons a rest ih =>
    cases mds with
    | nil => simp [decryptAttachments, ih]
    | cons m ms => simp [decryptAttachments, ih]

theorem decryptAttachments_getD (dec : DecRequest → Except String String)
    (atts : List Attachment) (mds : List (Option PartMeta)) (i : Nat)
    (h : i < atts.length) :
    (decryptAttachments dec atts mds).getD i default =
      decryptOneAttachment dec (atts.getD i default) (mds.getD i none) := by
  induction atts generalizing mds i with
  | nil => cases h
  | cons a rest ih =>
    cases mds with
    | nil =>
      cases i with
      | zero => rfl
      | succ j =>
        have hj : j < rest.length := Nat.lt_of_succ_lt_succ h
        simpa [decryptAttachments] using ih [] j hj
    | cons m ms =>
      cases i with
      | zero => rfl
      | succ j =>
        have hj : j < rest.length := Nat.lt_of_succ_lt_succ h
        simpa [decryptAttachments] using ih ms j hj

/-- Claim C5: on an encrypted message with metadata, `decryptEmail` always
succeeds, each part being handed to its per-part helper; a failing provider
call on the subject, the body, or one attachment turns only that part into its
marked placeholder (`"[Decryption Failed]"`, the failed-body HTML, resp. the
attachment with a `decryptionError` note), while a succeeding part is
decrypted normally and attachments are processed element-wise with none
dropped. -/
theorem decrypt_email_partial_failure (dec : DecRequest → Except String String)
    (email : Email) (md : EmailMeta)
    (h1 : email.encrypted = true) (h2 : email.encryptionMetadata = some md) :
    (decryptEmail dec email = .ok
      { decryptedEmail :=
          { email with
            subject := decryptSubject dec email.subject md.subject,
            body := decryptBody dec email.body md.body,
            attachments := decryptAttachments dec email.attachments md.attachments,
            encrypted := false },
        wasEncrypted := true, securityLevel := some md.securityLevel }) ∧
    (∀ s m e, List.isPrefixOf ("[QuMail-Encrypted]".data) s.data = true →
      dec { encryptedData := s.replace "[QuMail-Encrypted] " "",
            securityLevel := m.securityLevel, quantumKeyId := m.quantumKeyId,
            algorithm := m.algorithm } = .error e →
      decryptSubject dec s m = "[Decryption Failed]") ∧
    (∀ s m d, List.isPrefixOf ("[QuMail-Encrypted]".data) s.data = true →
      dec { encryptedData := s.replace "[QuMail-Encrypted] " "",
            securityLevel := m.securityLevel, quantumKeyId := m.quantumKeyId,
            algorithm := m.algorithm } = .ok d →
      decryptSubject dec s m = d) ∧
    (∀ b m ed e, containsSub ("QuMail-Encrypted-Body".data) b.data = true →
      extractEncryptedBody b = some ed →
      dec { encryptedData := ed, securityLevel := m.securityLevel,
            quantumKeyId := m.quantumKeyId, algorithm := m.algorithm } = .error e →
      decryptBody dec b m = bodyFailedPlaceholder) ∧
    (∀ b m d, containsSub ("QuMail-Encrypted-Body".data) b.data = true →
      (∀ ed, extractEncryptedBody b = some ed →
        dec { encryptedData := ed, securityLevel := m.securityLevel,
              quantumKeyId := m.quantumKeyId, algorithm := m.algorithm } = .ok d) →
      extractEncryptedBody b ≠ none →
      decryptBody dec b m = d) ∧
    (∀ atts mds, (decryptAttachments dec atts mds).length = atts.length) ∧
    (∀ a m e, a.encrypted = true →
      dec { encryptedData := attDataAsString a.data, securityLevel := m.securityLevel,
            quantumKeyId := m.quantumKeyId, algorithm := m.algorithm } = .error e →
      decryptOneAttachment dec a (some m) = { a with decryptionError := some e }) ∧
    (∀ atts mds i, i < (atts : List Attachment).length →
      (decryptAttachments dec atts mds).getD i default =
        decryptOneAttachment dec (atts.getD i default) (mds.getD i none)) := by
  refine ⟨?_, ?_, ?_, ?_, ?_, decryptAttachments_length dec, ?_, ?_⟩
  · simp [decryptEmail, h1, h2]
  · intro s m e hpre hdec
    simp only [decryptSubject, hpre, Bool.true_eq_false, if_false, hdec]
  · intro s m d hpre hdec
    simp only [decryptSubject, hpre, Bool.true_eq_false, if_false, hdec]
  · intro b m ed e hmark hext hdec
    simp only [decryptBody, hmark, Bool.true_eq_false, if_false, hext, hdec]
  · intro b m d hmark hdec hext
    rcases hex : extractEncryptedBody b with - | ed
    · exact absurd hex hext
    · simp only [decryptBody, hmark, Bool.true_eq_false, if_false, hex, hdec ed hex]
  · intro a m e henc hdec
    simp only [decryptOneAttachment, henc, Bool.true_eq_false, if_false, hdec]
  · intro atts mds i hi
    exact decryptAttachments_getD dec atts mds i hi

/-- Concrete instantiation of `decrypt_email_partial_failure`. -/
theorem decrypt_email_partial_failure_witness :
    (decryptEmail (fun _ => .error "key manager unreachable")
        { subject := "[QuMail-Encrypted] abc...", body := "cipher body",
          attachments := [], encrypted := true,
          encryptionMetadata := some
            { securityLevel := "quantum_secure",
              subject := default, body := default, attachments := [] } } = .ok
      { decryptedEmail :=
          { subject := decryptSubject (fun _ => .error "key manager unreachable")
              "[QuMail-Encrypted] abc..." default,
            body := decryptBody (fun _ => .error "key manager unreachable")
              "cipher body" default,
            attachments := decryptAttachments (fun _ => .error "key manager unreachable") [] [],
            encrypted := false,
            encryptionMetadata := some
              { securityLevel := "quantum_secure",
                subject := default, body := default, attachments := [] } },
        wasEncrypted := true, securityLevel := some "quantum_secure" }) ∧
    (∀ s m e, List.isPrefixOf ("[QuMail-Encrypted]".data) s.data = true →
      (fun _ => .error "key manager unreachable" : DecRequest → Except String String)
          { encryptedData := s.replace "[QuMail-Encrypted] " "",
            securityLevel := m.securityLevel, quantumKeyId := m.quantumKeyId,
            algorithm := m.algorithm } = .error e →
      decryptSubject (fun _ => .error "key manager unreachable") s m = "[Decryption Failed]") ∧
    (∀ s m d, List.isPrefixOf ("[QuMail-Encrypted]".data) s.data = true →
      (fun _ => .error "key manager unreachable" : DecRequest → Except String String)
          { encryptedData := s.replace "[QuMail-Encrypted] " "",
            securityLevel := m.securityLevel, quantumKeyId := m.quantumKeyId,
            algorithm := m.algorithm } = .ok d →
      decryptSubject (fun _ => .error "key manager unreachable") s m = d) ∧
    (∀ b m ed e, containsSub ("QuMail-Encrypted-Body".data) b.data = true →
      extractEncryptedBody b = some ed →
      (fun _ => .error "key manager unreachable" : DecRequest → Except String String)
          { encryptedData := ed, securityLevel := m.securityLevel,
            quantumKeyId := m.quantumKeyId, algorithm := m.algorithm } = .error e →
      decryptBody (fun _ => .error "key manager unreachable") b m = bodyFailedPlaceholder) ∧
    (∀ b m d, containsSub ("QuMail-Encrypted-Body".data) b.data = true →
      (∀ ed, extractEncryptedBody b = some ed →
        (fun _ => .error "key manager unreachable" : DecRequest → Except String String)
            { encryptedData := ed, securityLevel := m.securityLevel,
              quantumKeyId := m.quantumKeyId, algorithm := m.algorithm } = .ok d) →
      extractEncryptedBody b ≠ none →
      decryptBody (fun _ => .error "key manager unreachable") b m = d) ∧
    (∀ atts mds, (decryptAttachments (fun _ => .error "key manager unreachable") atts mds).length
      = atts.length) ∧
    (∀ a m e, a.encrypted = true →
      (fun _ => .error "key manager unreachable" : DecRequest → Except String String)
          { encryptedData := attDataAsString a.data, securityLevel := m.securityLevel,
            quantumKeyId := m.quantumKeyId, algorithm := m.algorithm } = .error e →
      decryptOneAttachment (fun _ => .error "key manager unreachable") a (some m) =
        { a with decryptionError := some e }) ∧
    (∀ atts mds i, i < (atts : List Attachment).length →
      (decryptAttachments (fun _ => .error "key manager unreachable") atts mds).getD i default =
        decryptOneAttachment (fun _ => .error "key manager unreachable")
          (atts.getD i default) (mds.getD i none)) :=
  decrypt_email_partial_failure (fun _ => .error "key manager unreachable")
    { subject := "[QuMail-Encrypted] abc...", body := "cipher body",
      attachments := [], encrypted := true,
      encryptionMetadata := some
        { securityLevel := "quantum_secure",
          subject := default, body := default, attachments := [] } }
    { securityLevel := "quantum_secure",
      subject := default, body := default, attachments := [] }
    rfl rfl

/-- Claim C8 counterexample: `decryptAttachments` reports success (no
`decryptionError`) for a binary attachment whose decrypted content has length
1 while the recorded `originalSize` is 999 — the size field is copied from
metadata without any content-length or hash comparison, refuting the claim
that the round-tripped content is "verified by a content-length/hash check
before decryption reports success". -/
theorem b64_no_verification_counterexample :
    decryptAttachments (fun _ => .ok "AA==")
        [ { filename := "f.bin", contentType := "application/octet-stream", size := 4,
            data := .str "CT", encrypted := true, encryptionError := none,
            decryptionError := none, metadata := none } ]
        [ some { algorithm := "OTP", securityLevel := "quantum_secure",
                 quantumKeyId := none, originalSize := 999,
                 originalContentType := "application/pdf" } ] =
      [ { filename := "f.bin", contentType := "application/pdf", size := 999,
          data := .buf [0], encrypted := false, encryptionError := none,
          decryptionError := none, metadata := none } ] ∧
    ([0] : List Nat).length ≠ 999 := by
  constructor
  · rfl
  · decide

/-- Claim C8 as amended: the text-safe transport encoding round-trips
byte-exactly (`base64ToArrayBuffer (arrayBufferToBase64 b) = b`), but no
content-length or hash check precedes success: `decryptOneAttachment` reports
a successfully decrypted attachment whose `size` is copied from metadata for
every decrypted buffer `buf`, with no comparison against it. -/
theorem b64_roundtrip_and_no_verification :
    (∀ b : List Nat, (∀ x ∈ b, x < 256) →
      base64ToArrayBuffer (arrayBufferToBase64 b) = some b) ∧
    (∀ (dec : DecRequest → Except String String) (a : Attachment) (m : PartMeta)
        (d : String) (buf : List Nat),
      a.encrypted = true →
      dec { encryptedData := attDataAsString a.data, securityLevel := m.securityLevel,
            quantumKeyId := m.quantumKeyId, algorithm := m.algorithm } = .ok d →
      m.originalContentType ≠ "" →
      List.isPrefixOf ("text/".data) m.originalContentType.data = false →
      base64ToArrayBuffer d = some buf →
      decryptOneAttachment dec a (some m) =
        { a with data := .buf buf, encrypted := false,
                 contentType := m.originalContentType,
                 size := if m.originalSize = 0 then a.size else m.originalSize }) := by
  constructor
  · intro b hb
    exact decodeB64_encodeB64 b hb
  · intro dec a m d buf henc hdec hct hpre hb64
    simp only [decryptOneAttachment, henc, Bool.true_eq_false, if_false, hdec, hb64,
      ne_eq, hct, not_false_eq_true, hpre, and_self, reduceIte]

/-- Concrete instantiation of `b64_roundtrip_and_no_verification`. -/
theorem b64_roundtrip_and_no_verification_witness :
    base64ToArrayBuffer (arrayBufferToBase64 [0, 100, 255]) = some [0, 100, 255] ∧
    decryptOneAttachment (fun _ => .ok "AA==")
        { filename := "f.bin", contentType := "application/octet-stream", size := 4,
          data := .str "CT", encrypted := true, encryptionError := none,
          decryptionError := none, metadata := none }
        (some { algorithm := "OTP", securityLevel := "quantum_secure",
                quantumKeyId := none, originalSize := 999,
                originalContentType := "application/pdf" }) =
      { filename := "f.bin", contentType := "application/pdf",
        size := if (999 : Nat) = 0 then 4 else 999,
        data := .buf [0], encrypted := false, encryptionError := none,
        decryptionError := none, metadata := none } :=
  ⟨b64_roundtrip_and_no_verification.1 [0, 100, 255] (by decide),
   b64_roundtrip_and_no_verification.2 (fun _ => .ok "AA==")
     { filename := "f.bin", contentType := "application/octet-stream", size := 4,
       data := .str "CT", encrypted := true, encryptionError := none,
       decryptionError := none, metadata := none }
     { algorithm := "OTP", securityLevel := "quantum_secure",
       quantumKeyId := none, originalSize := 999,
       originalContentType := "application/pdf" }
     "AA==" [0] rfl rfl (by decide) (by decide) (by decide)⟩

/-! ## SecurityService: Quantum-aided AES tier (Level 2)

`encryptWithQuantumAES` / `decryptFromQuantumAES` configure `CryptoJS.AES`
with `mode: CryptoJS.mode.GCM`, but crypto-js ships no GCM implementation
(`CryptoJS.mode.GCM` is `undefined`), so no authentication tag is ever
produced or checked.  The AES primitive applied with the re-derived key and
the transmitted IV is therefore abstracted as a parameter `aesDecrypt`, whose
output is the UTF-8 decode of the raw block decryption (`""` when the decode
is empty).  The JS code's only post-decryption check is
`if (!decryptedData) throw new Error("Decryption failed - invalid key or corrupted data")`. -/

/-- Fields of an `encryptWithQuantumAES` payload read back on decryption. -/
structure QAESPayload where
  encryptedData : String
  iv : String
  quantumKeyId : Option Nat
  deriving Repr, DecidableEq

/-- Successful return object of `decryptFromQuantumAES`. -/
structure QAESResult where
  data : String
  verified : Bool
  deriving Repr, DecidableEq

/-- Embedding of `SecurityService.decryptFromQuantumAES` around the abstract
AES primitive: missing key id and failed key retrieval are the named error
paths; after decryption the sole check is that the decoded string is
non-empty. -/
def decryptFromQuantumAES (aesDecrypt : List Nat → String → String → String)
    (getKey : Nat → KeyResponse) (p : QAESPayload) : Except String QAESResult :=
  match p.quantumKeyId with
  | none => .error "Missing quantum key ID for AES decryption"
  | some kid =>
    let resp := getKey kid
    if resp.success = true ∧ resp.keys ≠ [] then
      let decryptedData := aesDecrypt (resp.keys.headD []) p.encryptedData p.iv
      if decryptedData = "" then
        .error "Decryption failed - invalid key or corrupted data"
      else
        .ok { data := decryptedData, verified := true }
    else
      .error "Failed to retrieve quantum key for AES decryption"

/-- Claim C7 (code-bug evidence): `decryptFromQuantumAES` accepts every
ciphertext — corrupted or not — whose raw decryption decodes to a non-empty
string, returning it as `verified := true`; there is no authentication-tag
or integrity check distinct from the emptiness test, for any behaviour of the
AES primitive. -/
theorem qaes_no_integrity_check (aesDecrypt : List Nat → String → String → String)
    (getKey : Nat → KeyResponse) (p : QAESPayload) (kid : Nat)
    (hkid : p.quantumKeyId = some kid)
    (hresp : (getKey kid).success = true ∧ (getKey kid).keys ≠ [])
    (hne : aesDecrypt ((getKey kid).keys.headD []) p.encryptedData p.iv ≠ "") :
    decryptFromQuantumAES aesDecrypt getKey p =
      .ok { data := aesDecrypt ((getKey kid).keys.headD []) p.encryptedData p.iv,
            verified := true } := by
  simp only [decryptFromQuantumAES, hkid]
  rw [if_pos hresp, if_neg hne]

/-- Concrete instantiation of `qaes_no_integrity_check`: a tampered
ciphertext is returned as verified plaintext. -/
theorem qaes_no_integrity_check_witness :
    decryptFromQuantumAES (fun _ ct _ => ct) (fun _ => { success := true, keys := [[7]] })
        { encryptedData := "tampered ciphertext", iv := "00", quantumKeyId := some 1 } =
      .ok { data := (fun (_ : List Nat) (ct _ : String) => ct) [7] "tampered ciphertext" "00",
            verified := true } :=
  qaes_no_integrity_check (fun _ ct _ => ct) (fun _ => { success := true, keys := [[7]] })
    { encryptedData := "tampered ciphertext", iv := "00", quantumKeyId := some 1 } 1
    rfl (by constructor <;> simp) (by simp)

end QuMail
